import Mathlib

/-!
Verification development for the Ki0xk kiosk settlement core.

Shallow embedding of the orchestration logic in `src/settlement.ts`,
`src/session.ts`, `src/arc/fees.ts` and `src/arc/chains.ts`.

Modelling decisions, applied uniformly:
* JavaScript numbers are modelled as `ℚ`; `toFixed(p)` becomes decimal
  rounding (`round6`, `round2`) on rationals.  Decimal amount strings that
  the code stores and re-parses (session balances) are represented by their
  rational value.
* Every external client call (ClearNode accounting client, Arc bridge) is
  an oracle supplied through `Env`: a thrown JS exception is `Except.error`
  and a returned value is `Except.ok`.  One `Env` describes one invocation.
* Durable storage (`savePinWallets` / `saveSessions`) is explicit state:
  each operation maps the stored collection to the new stored collection
  and additionally reports a trace of `Event`s, in execution order, so
  that ordering properties (persist-before-call) can be stated.
* A TS `throw` escaping the operation is `Except.error msg` in the result
  component; the state component is always the durably persisted state.
-/

/-! ## Decimal rounding and parsing -/

/-- `toFixed(6)` followed by `parseFloat`, on the rational model:
round to six decimal places, ties upward (`src/arc/fees.ts` lines 29-30). -/
def round6 (x : ℚ) : ℚ := ((⌊x * 1000000 + 1/2⌋ : ℤ) : ℚ) / 1000000

/-- `toFixed(2)` followed by re-parsing, on the rational model:
round to two decimal places, ties upward (`src/session.ts` lines 254-255). -/
def round2 (x : ℚ) : ℚ := ((⌊x * 100 + 1/2⌋ : ℤ) : ℚ) / 100

def isDigitChar (c : Char) : Bool := decide ('0' ≤ c) && decide (c ≤ '9')

def digitsToNat (cs : List Char) : Nat :=
  cs.foldl (fun a c => 10 * a + (c.toNat - '0'.toNat)) 0

/-- Character-level part of JavaScript `parseFloat` restricted to plain
decimal literals (optional sign, digits, optional fraction; longest valid
prefix): the sign, integer digits, fraction digits and fraction length.
`none` models `NaN`. -/
def parseParts (s : String) : Option (Bool × Nat × Nat × Nat) :=
  let cs := s.toList
  let signAndRest : Bool × List Char :=
    match cs with
    | '-' :: rest => (true, rest)
    | '+' :: rest => (false, rest)
    | _ => (false, cs)
  let neg := signAndRest.1
  let cs1 := signAndRest.2
  let intPart := cs1.takeWhile isDigitChar
  let rest := cs1.drop intPart.length
  match rest with
  | '.' :: afterDot =>
    let fracPart := afterDot.takeWhile isDigitChar
    if intPart.isEmpty && fracPart.isEmpty then none
    else some (neg, digitsToNat intPart, digitsToNat fracPart, fracPart.length)
  | _ =>
    if intPart.isEmpty then none
    else some (neg, digitsToNat intPart, 0, 0)

/-- Numeric value of the parsed sign/integer/fraction parts. -/
def decValue (p : Bool × Nat × Nat × Nat) : ℚ :=
  let v : ℚ := (p.2.1 : ℚ) + (p.2.2.1 : ℚ) / (10 : ℚ) ^ p.2.2.2
  if p.1 then -v else v

/-- JavaScript `parseFloat` on plain decimal literals, as a rational;
`none` models `NaN`.  Exponent forms and `Infinity` are not used by the
kiosk code, whose amount strings are plain decimals. -/
def parseDecimal (s : String) : Option ℚ := (parseParts s).map decValue

/-! ## Fee calculator (`src/arc/fees.ts`) -/

/-- 0.001% = 0.00001 (`src/arc/fees.ts` line 11). -/
def feeRateValue : ℚ := 1 / 100000

structure FeeBreakdown where
  grossAmount : ℚ
  fee : ℚ
  netAmount : ℚ
  feePercentage : String
deriving Repr, DecidableEq

/-- `calculateFee` (`src/arc/fees.ts` lines 23-33).  The source performs no
input validation: the formula is applied to whatever number it receives. -/
def calculateFee (amount : ℚ) : FeeBreakdown :=
  let fee := amount * feeRateValue
  let netAmount := amount - fee
  { grossAmount := amount
    fee := round6 fee
    netAmount := round6 netAmount
    feePercentage := "0.001%" }

/-! ## Supported chains (`src/arc/chains.ts`) -/

structure ChainInfo where
  name : String
  bridgeKitName : String
  chainId : Nat
  isTestnet : Bool
  explorerUrl : String
  rpcUrl : String
deriving Repr, DecidableEq

def mkChain (name bridgeKitName : String) (chainId : Nat)
    (explorerUrl rpcUrl : String) : ChainInfo :=
  ⟨name, bridgeKitName, chainId, true, explorerUrl, rpcUrl⟩

/-- `SUPPORTED_CHAINS` (`src/arc/chains.ts` lines 15-80), as an association
list in declaration order; every entry has `isTestnet = true`. -/
def supportedChains : List (String × ChainInfo) :=
  [ ("arc", mkChain "Arc Testnet" "Arc_Testnet" 0
      "https://explorer.arc.network" "https://rpc-testnet.arc.network"),
    ("base", mkChain "Base Sepolia" "Base_Sepolia" 84532
      "https://sepolia.basescan.org" "https://sepolia.base.org"),
    ("ethereum", mkChain "Ethereum Sepolia" "Ethereum_Sepolia" 11155111
      "https://sepolia.etherscan.io" "https://rpc.sepolia.org"),
    ("arbitrum", mkChain "Arbitrum Sepolia" "Arbitrum_Sepolia" 421614
      "https://sepolia.arbiscan.io" "https://sepolia-rollup.arbitrum.io/rpc"),
    ("polygon", mkChain "Polygon Amoy" "Polygon_Amoy_Testnet" 80002
      "https://amoy.polygonscan.com" "https://rpc-amoy.polygon.technology"),
    ("optimism", mkChain "Optimism Sepolia" "OP_Sepolia" 11155420
      "https://sepolia-optimism.etherscan.io" "https://sepolia.optimism.io"),
    ("avalanche", mkChain "Avalanche Fuji" "Avalanche_Fuji" 43113
      "https://testnet.snowtrace.io" "https://api.avax-test.network/ext/bc/C/rpc"),
    ("linea", mkChain "Linea Sepolia" "Linea_Sepolia" 59141
      "https://sepolia.lineascan.build" "https://rpc.sepolia.linea.build") ]

/-- ASCII case folding of one character (`String.prototype.toLowerCase`
acts exactly like this on the ASCII chain keys the kiosk uses). -/
def asciiLowerChar (c : Char) : Char :=
  if 'A' ≤ c ∧ c ≤ 'Z' then Char.ofNat (c.toNat + 32) else c

def asciiLower (s : String) : String := String.mk (s.data.map asciiLowerChar)

/-- `getChainByKey` (`src/arc/chains.ts` lines 85-87): lowercase the key and
look it up in `SUPPORTED_CHAINS`. -/
def getChainByKey (key : String) : Option ChainInfo :=
  (supportedChains.find? (fun p => decide (p.1 = asciiLower key))).map Prod.snd

/-! ## Recovery records (PIN wallets, `src/settlement.ts`) -/

inductive WalletStatus where
  | PENDING
  | PENDING_BRIDGE
  | SETTLED
  | FAILED
deriving Repr, DecidableEq

/-- `PinWallet` (`src/settlement.ts` lines 29-51), without the transient
`pin` field (present only on the creation return value, modelled separately). -/
structure PinWallet where
  id : String
  pinHash : String
  amount : String
  createdAt : Nat
  destination : Option String
  targetChain : Option String
  status : WalletStatus
  bridgeAttempts : Nat
  lastBridgeError : Option String
  lastBridgeAttempt : Option Nat
  bridgeTxHash : Option String
  settledAt : Option Nat
deriving Repr, DecidableEq

/-- Modelled from the spec: `hashPin` (`src/settlement.ts` lines 297-299)
delegates to the external `crypto` library's SHA-256 hex digest, which is
not part of this repository.  The spec requires only that the digest be
deterministic and one-way; it is modelled as a deterministic injective
tagging function, which preserves exactly the equality/inequality behaviour
the orchestration code observes. -/
def hashPin (pin : String) : String := "sha256:" ++ pin

/-- `generatePin` (`src/settlement.ts` lines 301-303): the external secure
random source `crypto.randomInt(100000, 1000000)` is modelled as the
parameter `r`, which that library guarantees to satisfy
`100000 ≤ r < 1000000`; the pin is its decimal string. -/
def generatePin (r : Nat) : String := toString r

/-- `WALLET_ID_CHARS` (`src/settlement.ts` line 306). -/
def walletIdChars : List Char :=
  ['0', '1', '2', '3', '4', '5', '6', '7', '8', '9', 'A', 'B', 'C', 'D']

/-- `WALLET_ID_LENGTH` (`src/settlement.ts` line 307). -/
def walletIdLength : Nat := 6

/-- `generateWalletId` (`src/settlement.ts` lines 309-315): six characters,
each indexed by `crypto.randomInt(WALLET_ID_CHARS.length)`, modelled as the
draw function `draw` with values in `Fin 14` (the library returns an index
strictly below the bound). -/
def generateWalletId (draw : Fin walletIdLength → Fin 14) : String :=
  String.mk ((List.finRange walletIdLength).map
    (fun i => walletIdChars.get (Fin.cast (by decide) (draw i))))

/-- `BridgeResult` (`src/arc/bridge.ts` lines 31-39). -/
structure BridgeResult where
  success : Bool
  txHash : Option String
  sourceChain : String
  destinationChain : String
  amount : String
  fee : FeeBreakdown
  error : Option String
deriving Repr, DecidableEq

/-- `SettlementResult` (`src/settlement.ts` lines 53-60). -/
structure SettlementResult where
  success : Bool
  yellowRecorded : Bool
  bridgeResult : Option BridgeResult
  fallbackPin : Option String
  fallbackId : Option String
  message : String
deriving Repr, DecidableEq

/-! ## Sessions (`src/session.ts`) -/

inductive SessionStatus where
  | ACTIVE
  | SETTLING
  | SETTLED
  | FAILED
deriving Repr, DecidableEq

/-- `KioskSession` (`src/session.ts` lines 31-58).  The two balance strings,
always written through `toFixed(2)`, are represented by their rational
values. -/
structure KioskSession where
  id : String
  channelId : Option String
  userIdentifier : Option String
  totalDeposited : ℚ
  currentBalance : ℚ
  startedAt : Nat
  lastActivityAt : Nat
  endedAt : Option Nat
  status : SessionStatus
  destinationAddress : Option String
  destinationChain : Option String
  bridgeTxHash : Option String
  fee : Option FeeBreakdown
  error : Option String
deriving Repr, DecidableEq

/-- `SessionDepositResult` (`src/session.ts` lines 67-72), balances as
rational values of the stored decimal strings. -/
structure SessionDepositResult where
  success : Bool
  newBalance : ℚ
  totalDeposited : ℚ
  message : String
deriving Repr, DecidableEq

/-! ## Execution environment and event traces -/

/-- Observable steps of one invocation, in execution order: durable writes
(`savePinWallets` / `saveSessions`) and external client calls. -/
inductive Event where
  | persistWallets (ws : List PinWallet)
  | persistSessions (ss : List KioskSession)
  | callAuth
  | callCreateChannel
  | callBridge (destination chainKey amount : String)
  | callChannelQuery (channelId : String)
  | callCloseChannel (channelId : String)
  | callResizeChannel (channelId : String)
deriving Repr, DecidableEq

def Event.isExternalCall : Event → Bool
  | .persistWallets _ => false
  | .persistSessions _ => false
  | _ => true

/-- Oracle for one invocation: outcomes of the external ClearNode and
bridge calls (`Except.error` = the call throws), the clock, and the two
random draws.  `bridgeCall` is keyed by the arguments the code passes to
`bridgeToChain`. -/
structure Env where
  isAuthenticated : Bool
  authResult : Except String Unit
  createChannelResult : Except String String
  channelQueryResult : Except String Bool
  closeChannelResult : Except String Unit
  resizeChannelResult : Except String Unit
  bridgeCall : String → String → String → Except String BridgeResult
  now : Nat
  newPin : String
  newWalletId : String

/-- The combined lazy-authentication step (`connect`/`getConfig`/
`authenticate`, run only when `isAuthenticated` is false). -/
def Env.auth (env : Env) : Except String Unit :=
  if env.isAuthenticated then Except.ok () else env.authResult

def Env.authTrace (env : Env) : List Event :=
  if env.isAuthenticated then [] else [Event.callAuth]

/-! ## `settleToChain` (`src/settlement.ts` lines 154-291) -/

/-- The recovery record created first thing by `settleToChain`
(lines 176-185). -/
def settleRecord (env : Env) (destination targetChainKey amount : String) :
    PinWallet :=
  { id := env.newWalletId
    pinHash := hashPin env.newPin
    amount := amount
    createdAt := env.now
    destination := some destination
    targetChain := some targetChainKey
    status := WalletStatus.PENDING_BRIDGE
    bridgeAttempts := 0
    lastBridgeError := none
    lastBridgeAttempt := none
    bridgeTxHash := none
    settledAt := none }

/-- The `catch` block of `settleToChain` (lines 263-290): best-effort close
when a channel was opened, then increment attempts, record the error and
persist; the thrown error is reported as a failed result, not rethrown. -/
def settleCatchBlock (env : Env) (wallets : List PinWallet) (w : PinWallet)
    (channelId : Option String) (errorMsg : String) (tr : List Event) :
    Except String SettlementResult × List PinWallet × List Event :=
  let tr1 := match channelId with
    | some cid => tr ++ [Event.callCloseChannel cid]
    | none => tr
  let w1 := { w with
    bridgeAttempts := w.bridgeAttempts + 1
    lastBridgeError := some errorMsg
    lastBridgeAttempt := some env.now }
  let ws1 := wallets ++ [w1]
  let res : SettlementResult :=
    { success := false
      yellowRecorded := false
      bridgeResult := none
      fallbackPin := some env.newPin
      fallbackId := some w.id
      message := "Settlement failed. PIN: " ++ env.newPin ++ " - Use to retry later." }
  (Except.ok res, ws1, tr1 ++ [Event.persistWallets ws1])

/-- The `try` block of `settleToChain` (lines 193-262), entered after the
recovery record was already persisted; `wallets` is the collection before
the new record was appended, `w` the freshly persisted record. -/
def settleTryBlock (env : Env) (wallets : List PinWallet) (w : PinWallet)
    (chainInfo : ChainInfo) (destination targetChainKey amount : String)
    (feeBreakdown : FeeBreakdown) :
    Except String SettlementResult × List PinWallet × List Event :=
  match env.auth with
  | Except.error e => settleCatchBlock env wallets w none e env.authTrace
  | Except.ok _ =>
    let tr3 := env.authTrace ++ [Event.callCreateChannel]
    match env.createChannelResult with
    | Except.error e => settleCatchBlock env wallets w none e tr3
    | Except.ok channelId =>
      let tr4 := tr3 ++ [Event.callBridge destination targetChainKey amount]
      match env.bridgeCall destination targetChainKey amount with
      | Except.error e => settleCatchBlock env wallets w (some channelId) e tr4
      | Except.ok bridgeResult =>
        let tr5 := tr4 ++ [Event.callChannelQuery channelId]
        match env.channelQueryResult with
        | Except.error e => settleCatchBlock env wallets w (some channelId) e tr5
        | Except.ok stillOpen =>
          let tr6 := if stillOpen then tr5 ++ [Event.callCloseChannel channelId] else tr5
          if bridgeResult.success then
            let w1 := { w with
              status := WalletStatus.SETTLED
              bridgeTxHash := bridgeResult.txHash
              settledAt := some env.now }
            let ws2 := wallets ++ [w1]
            let res : SettlementResult :=
              { success := true
                yellowRecorded := true
                bridgeResult := some bridgeResult
                fallbackPin := none
                fallbackId := none
                message := "Settlement complete! " ++ toString feeBreakdown.netAmount ++
                  " USDC sent to " ++ chainInfo.name }
            (Except.ok res, ws2, tr6 ++ [Event.persistWallets ws2])
          else
            let w1 := { w with
              bridgeAttempts := w.bridgeAttempts + 1
              lastBridgeError := bridgeResult.error
              lastBridgeAttempt := some env.now }
            let ws2 := wallets ++ [w1]
            let res : SettlementResult :=
              { success := false
                yellowRecorded := true
                bridgeResult := some bridgeResult
                fallbackPin := some env.newPin
                fallbackId := some w.id
                message := "Bridge failed. PIN: " ++ env.newPin ++ " - Use to retry later." }
            (Except.ok res, ws2, tr6 ++ [Event.persistWallets ws2])

/-- `settleToChain` (`src/settlement.ts` lines 154-291).  Returns the result
(`Except.error` = the function throws), the persisted wallet collection,
and the event trace.  The new recovery record is persisted before the
`try` block performs any external call. -/
def settleToChain (env : Env) (wallets : List PinWallet)
    (destination targetChainKey amount : String) :
    Except String SettlementResult × List PinWallet × List Event :=
  match getChainByKey targetChainKey with
  | none => (Except.error ("Unsupported chain: " ++ targetChainKey), wallets, [])
  | some chainInfo =>
    let feeBreakdown := calculateFee ((parseDecimal amount).getD 0)
    let w := settleRecord env destination targetChainKey amount
    let ws1 := wallets ++ [w]
    let rest := settleTryBlock env wallets w chainInfo destination targetChainKey
      amount feeBreakdown
    (rest.1, rest.2.1, Event.persistWallets ws1 :: rest.2.2)

/-! ## In-place mutation of one element of a stored collection

The TS code obtains a record by `Array.prototype.find`, mutates the object
in place and re-serializes the whole array; the net effect on the stored
array is: the first element satisfying the search predicate is replaced,
everything else is untouched. -/

def replaceFirst (p : α → Bool) (f : α → α) : List α → List α
  | [] => []
  | x :: xs => if p x then f x :: xs else x :: replaceFirst p f xs

/-- Index of the first element satisfying `p` (specification-side handle on
what `Array.prototype.find` picked). -/
def firstIdx (p : α → Bool) : List α → Option Nat
  | [] => none
  | x :: xs => if p x then some 0 else (firstIdx p xs).map (· + 1)

/-! ## `createPinWallet` (`src/settlement.ts` lines 371-389) -/

/-- `createPinWallet`: append a fresh PENDING record with zero attempts,
persist, and return the record together with the one-time plaintext PIN. -/
def createPinWallet (env : Env) (wallets : List PinWallet) (amount : String) :
    (PinWallet × String) × List PinWallet × List Event :=
  let w : PinWallet :=
    { id := env.newWalletId
      pinHash := hashPin env.newPin
      amount := amount
      createdAt := env.now
      destination := none
      targetChain := none
      status := WalletStatus.PENDING
      bridgeAttempts := 0
      lastBridgeError := none
      lastBridgeAttempt := none
      bridgeTxHash := none
      settledAt := none }
  let ws1 := wallets ++ [w]
  ((w, env.newPin), ws1, [Event.persistWallets ws1])

/-! ## `claimPinWallet` (`src/settlement.ts` lines 401-536) -/

/-- The lookup predicate of `claimPinWallet` (lines 408-410): matching id
and status PENDING or PENDING_BRIDGE. -/
def claimPred (walletId : String) (w : PinWallet) : Bool :=
  decide (w.id = walletId) &&
    (decide (w.status = WalletStatus.PENDING) ||
     decide (w.status = WalletStatus.PENDING_BRIDGE))

/-- The `catch` block of `claimPinWallet` (lines 510-535): best-effort
close, then revert to PENDING_BRIDGE with incremented attempts and persist.
`put w` re-serializes the collection with the claimed record replaced by
`w`. -/
def claimCatchBlock (env : Env) (put : PinWallet → List PinWallet)
    (wallet1 : PinWallet) (channelId : Option String) (errorMsg : String)
    (tr : List Event) :
    Except String SettlementResult × List PinWallet × List Event :=
  let tr1 := match channelId with
    | some cid => tr ++ [Event.callCloseChannel cid]
    | none => tr
  let w2 := { wallet1 with
    status := WalletStatus.PENDING_BRIDGE
    bridgeAttempts := wallet1.bridgeAttempts + 1
    lastBridgeError := some errorMsg
    lastBridgeAttempt := some env.now }
  let ws2 := put w2
  let res : SettlementResult :=
    { success := false
      yellowRecorded := false
      bridgeResult := none
      fallbackPin := none
      fallbackId := none
      message := "Settlement failed: " ++ errorMsg ++ ". PIN still valid for retry." }
  (Except.ok res, ws2, tr1 ++ [Event.persistWallets ws2])

/-- The `try` block of `claimPinWallet` (lines 442-509); `wallet1` is the
record after its destination fields were overwritten and persisted.  The
bridge is invoked with the record's stored `amount` (line 462). -/
def claimTryBlock (env : Env) (put : PinWallet → List PinWallet)
    (wallet1 : PinWallet) (chainInfo : ChainInfo)
    (destination targetChainKey : String) (feeBreakdown : FeeBreakdown) :
    Except String SettlementResult × List PinWallet × List Event :=
  match env.auth with
  | Except.error e => claimCatchBlock env put wallet1 none e env.authTrace
  | Except.ok _ =>
    let tr3 := env.authTrace ++ [Event.callCreateChannel]
    match env.createChannelResult with
    | Except.error e => claimCatchBlock env put wallet1 none e tr3
    | Except.ok channelId =>
      let tr4 := tr3 ++ [Event.callBridge destination targetChainKey wallet1.amount]
      match env.bridgeCall destination targetChainKey wallet1.amount with
      | Except.error e => claimCatchBlock env put wallet1 (some channelId) e tr4
      | Except.ok bridgeResult =>
        let tr5 := tr4 ++ [Event.callChannelQuery channelId]
        match env.channelQueryResult with
        | Except.error e => claimCatchBlock env put wallet1 (some channelId) e tr5
        | Except.ok stillOpen =>
          let tr6 := if stillOpen then tr5 ++ [Event.callCloseChannel channelId] else tr5
          if bridgeResult.success then
            let w2 := { wallet1 with
              status := WalletStatus.SETTLED
              bridgeTxHash := bridgeResult.txHash
              settledAt := some env.now }
            let ws2 := put w2
            let res : SettlementResult :=
              { success := true
                yellowRecorded := true
                bridgeResult := some bridgeResult
                fallbackPin := none
                fallbackId := none
                message := "Settlement complete! " ++ toString feeBreakdown.netAmount ++
                  " USDC sent to " ++ chainInfo.name }
            (Except.ok res, ws2, tr6 ++ [Event.persistWallets ws2])
          else
            let w2 := { wallet1 with
              status := WalletStatus.PENDING_BRIDGE
              bridgeAttempts := wallet1.bridgeAttempts + 1
              lastBridgeError := bridgeResult.error
              lastBridgeAttempt := some env.now }
            let ws2 := put w2
            let res : SettlementResult :=
              { success := false
                yellowRecorded := true
                bridgeResult := some bridgeResult
                fallbackPin := none
                fallbackId := none
                message := "Bridge failed: " ++ (bridgeResult.error).getD "undefined" ++
                  ". PIN still valid for retry." }
            (Except.ok res, ws2, tr6 ++ [Event.persistWallets ws2])

/-- `claimPinWallet` (`src/settlement.ts` lines 401-536).  Rejections
(missing/claimed record, PIN mismatch, unsupported chain) throw before any
write; on a match the destination fields are overwritten and persisted,
then the channel-plus-bridge protocol runs on the stored amount. -/
def claimPinWallet (env : Env) (wallets : List PinWallet)
    (walletId pin destination targetChainKey : String) :
    Except String SettlementResult × List PinWallet × List Event :=
  match wallets.find? (claimPred walletId) with
  | none => (Except.error "Wallet not found or already claimed", wallets, [])
  | some wallet =>
    if hashPin pin ≠ wallet.pinHash then
      (Except.error "Invalid PIN", wallets, [])
    else
      match getChainByKey targetChainKey with
      | none => (Except.error ("Unsupported chain: " ++ targetChainKey), wallets, [])
      | some chainInfo =>
        let wallet1 := { wallet with
          destination := some destination
          targetChain := some targetChainKey }
        let put := fun (w : PinWallet) =>
          replaceFirst (claimPred walletId) (fun _ => w) wallets
        let ws1 := put wallet1
        let feeBreakdown := calculateFee ((parseDecimal wallet.amount).getD 0)
        let rest := claimTryBlock env put wallet1 chainInfo destination
          targetChainKey feeBreakdown
        (rest.1, rest.2.1, Event.persistWallets ws1 :: rest.2.2)

/-! ## `retryPendingBridges` (`src/settlement.ts` lines 541-593) -/

/-- The sweep filter (lines 547-549): status PENDING_BRIDGE and fewer than
three bridge attempts. -/
def retryFilter (w : PinWallet) : Bool :=
  decide (w.status = WalletStatus.PENDING_BRIDGE) && decide (w.bridgeAttempts < 3)

structure RetrySummary where
  attempted : Nat
  succeeded : Nat
  failed : Nat
deriving Repr, DecidableEq

/-- The loop body of `retryPendingBridges` (lines 554-584) applied along
the collection: each record passing the filter and carrying destination
and chain gets one bridge call; a thrown bridge error aborts the sweep
(nothing is persisted).  Returns updated records, succeeded and failed
counts, and the calls made. -/
def retryGo (env : Env) : List PinWallet →
    Except String (List PinWallet × Nat × Nat × List Event)
  | [] => Except.ok ([], 0, 0, [])
  | w :: ws =>
    if retryFilter w then
      match w.destination, w.targetChain with
      | some d, some c =>
        (match env.bridgeCall d c w.amount with
         | Except.error e => Except.error e
         | Except.ok r =>
           let w1 :=
             if r.success then
               { w with
                 status := WalletStatus.SETTLED
                 bridgeTxHash := r.txHash
                 settledAt := some env.now }
             else
               let wi := { w with
                 bridgeAttempts := w.bridgeAttempts + 1
                 lastBridgeError := r.error
                 lastBridgeAttempt := some env.now }
               if 3 ≤ wi.bridgeAttempts then { wi with status := WalletStatus.FAILED }
               else wi
           match retryGo env ws with
           | Except.error e => Except.error e
           | Except.ok (ws', s, f, tr) =>
             Except.ok (w1 :: ws',
               s + (if r.success then 1 else 0),
               f + (if !r.success && decide (3 ≤ w.bridgeAttempts + 1) then 1 else 0),
               Event.callBridge d c w.amount :: tr))
      | _, _ =>
        match retryGo env ws with
        | Except.error e => Except.error e
        | Except.ok (ws', s, f, tr) => Except.ok (w :: ws', s, f, tr)
    else
      match retryGo env ws with
      | Except.error e => Except.error e
      | Except.ok (ws', s, f, tr) => Except.ok (w :: ws', s, f, tr)

/-- `retryPendingBridges` (lines 541-593).  `attempted` counts the filtered
records (including those skipped for missing destination/chain, as in the
source).  On a thrown bridge error the function rethrows and the stored
collection is left as it was (the single `savePinWallets` at line 586 is
never reached); the trace is reported for completed sweeps. -/
def retryPendingBridges (env : Env) (wallets : List PinWallet) :
    Except String RetrySummary × List PinWallet × List Event :=
  match retryGo env wallets with
  | Except.error e => (Except.error e, wallets, [])
  | Except.ok (ws', s, f, tr) =>
    let summary : RetrySummary :=
      { attempted := (wallets.filter retryFilter).length
        succeeded := s
        failed := f }
    (Except.ok summary, ws', tr ++ [Event.persistWallets ws'])

/-- Per-record effect of one completed sweep (used to state what the loop
does to each stored record). -/
def retryStep (env : Env) (w : PinWallet) : PinWallet :=
  if retryFilter w then
    match w.destination, w.targetChain with
    | some d, some c =>
      (match env.bridgeCall d c w.amount with
       | Except.error _ => w
       | Except.ok r =>
         if r.success then
           { w with
             status := WalletStatus.SETTLED
             bridgeTxHash := r.txHash
             settledAt := some env.now }
         else
           let wi := { w with
             bridgeAttempts := w.bridgeAttempts + 1
             lastBridgeError := r.error
             lastBridgeAttempt := some env.now }
           if 3 ≤ wi.bridgeAttempts then { wi with status := WalletStatus.FAILED }
           else wi)
    | _, _ => w
  else w

/-! ## `depositToSession` (`src/session.ts` lines 201-287) -/

/-- The lookup predicate of `depositToSession` (line 206): matching id and
ACTIVE status. -/
def sessionPred (sessionId : String) (s : KioskSession) : Bool :=
  decide (s.id = sessionId) && decide (s.status = SessionStatus.ACTIVE)

/-- The balance update both the `try` and the `catch` paths apply
(lines 251-257 and 272-277): both balances move to
`toFixed(2)` of old value plus deposit; the `catch` additionally records
the error. -/
def depositUpdate (env : Env) (a : ℚ) (err : Option String)
    (s : KioskSession) : KioskSession :=
  { s with
    currentBalance := round2 (s.currentBalance + a)
    totalDeposited := round2 (s.totalDeposited + a)
    lastActivityAt := env.now
    error := match err with
      | some m => some m
      | none => s.error }

/-- `depositToSession` (`src/session.ts` lines 201-287).  Validation
failures throw with nothing persisted; after validation the local balances
are updated and persisted whether or not the channel resize succeeded. -/
def depositToSession (env : Env) (sessions : List KioskSession)
    (sessionId amount : String) :
    Except String SessionDepositResult × List KioskSession × List Event :=
  match sessions.find? (sessionPred sessionId) with
  | none =>
    (Except.error ("Session " ++ sessionId ++ " not found or not active"), sessions, [])
  | some session =>
    match parseDecimal amount with
    | none => (Except.error ("Invalid deposit amount: " ++ amount), sessions, [])
    | some a =>
      if a ≤ 0 then
        (Except.error ("Invalid deposit amount: " ++ amount), sessions, [])
      else
        let finishOk := fun (tr : List Event) =>
          let s1 := depositUpdate env a none session
          let ss1 := replaceFirst (sessionPred sessionId) (fun _ => s1) sessions
          let res : SessionDepositResult :=
            { success := true
              newBalance := s1.currentBalance
              totalDeposited := s1.totalDeposited
              message := "Deposited " ++ amount ++ " USDC. Session balance: " ++
                toString s1.currentBalance }
          (Except.ok res, ss1, tr ++ [Event.persistSessions ss1])
        let finishErr := fun (e : String) (tr : List Event) =>
          let s1 := depositUpdate env a (some e) session
          let ss1 := replaceFirst (sessionPred sessionId) (fun _ => s1) sessions
          let res : SessionDepositResult :=
            { success := false
              newBalance := s1.currentBalance
              totalDeposited := s1.totalDeposited
              message := "Balance updated but channel sync failed: " ++ e }
          (Except.ok res, ss1, tr ++ [Event.persistSessions ss1])
        match session.channelId with
        | none => finishOk []
        | some cid =>
          match env.auth with
          | Except.error e => finishErr e env.authTrace
          | Except.ok _ =>
            let tr1 := env.authTrace ++ [Event.callResizeChannel cid]
            match env.resizeChannelResult with
            | Except.error e => finishErr e tr1
            | Except.ok _ => finishOk tr1

/-! ## Digit counting (for the generated-PIN shape) -/

/-- Number of decimal digits of `n` (1 for `n < 10`). -/
def numDigits10 (n : Nat) : Nat :=
  if n < 10 then 1 else numDigits10 (n / 10) + 1
decreasing_by exact Nat.div_lt_self (by omega) (by omega)

/-! ## Concrete fixtures used by witnesses and counterexamples -/

def bridgeOkResult : BridgeResult :=
  { success := true
    txHash := some "0xT"
    sourceChain := "Arc Testnet"
    destinationChain := "Base Sepolia"
    amount := "1.00"
    fee := calculateFee 1
    error := none }

def bridgeFailResult : BridgeResult :=
  { success := false
    txHash := none
    sourceChain := "Arc Testnet"
    destinationChain := "Base Sepolia"
    amount := "1.00"
    fee := calculateFee 1
    error := some "insufficient liquidity" }

/-- Every external call succeeds, the bridge reports success, but the
post-bridge channel close throws. -/
def envCloseBoom : Env :=
  { isAuthenticated := true
    authResult := Except.ok ()
    createChannelResult := Except.ok "ch-1"
    channelQueryResult := Except.ok true
    closeChannelResult := Except.error "close rejected"
    resizeChannelResult := Except.ok ()
    bridgeCall := fun _ _ _ => Except.ok bridgeOkResult
    now := 1000
    newPin := "123456"
    newWalletId := "0A1B2C" }

/-- The bridge reports success but the channel-existence check throws. -/
def envQueryBoom : Env :=
  { envCloseBoom with
    channelQueryResult := Except.error "ws disconnected"
    closeChannelResult := Except.ok () }

/-- The very first external call (connect/authenticate) throws. -/
def envAuthBoom : Env :=
  { envCloseBoom with
    isAuthenticated := false
    authResult := Except.error "clearnode down" }

/-- All accounting calls succeed but the bridge returns a failure. -/
def envBridgeFail : Env :=
  { envCloseBoom with
    closeChannelResult := Except.ok ()
    bridgeCall := fun _ _ _ => Except.ok bridgeFailResult }

/-- The channel resize throws (accounting stage degraded). -/
def envResizeBoom : Env :=
  { envCloseBoom with
    closeChannelResult := Except.ok ()
    resizeChannelResult := Except.error "resize timeout" }

def walletFix (status : WalletStatus) (attempts : Nat) : PinWallet :=
  { id := "9D9D9D"
    pinHash := hashPin "111111"
    amount := "2.00"
    createdAt := 5
    destination := some "0xOLD"
    targetChain := some "ethereum"
    status := status
    bridgeAttempts := attempts
    lastBridgeError := none
    lastBridgeAttempt := none
    bridgeTxHash := none
    settledAt := none }

def sessionFix : KioskSession :=
  { id := "S1"
    channelId := some "ch-9"
    userIdentifier := none
    totalDeposited := 0
    currentBalance := 0
    startedAt := 1
    lastActivityAt := 1
    endedAt := none
    status := SessionStatus.ACTIVE
    destinationAddress := none
    destinationChain := none
    bridgeTxHash := none
    fee := none
    error := none }

/-- The session state after a first deposit of 5.00 whose channel resize
threw ("resize timeout"): both balances at 5, error recorded. -/
def sessionFix5 : KioskSession :=
  { sessionFix with
    currentBalance := 5
    totalDeposited := 5
    lastActivityAt := 1000
    error := some "resize timeout" }

/-- The expected terminal record when the seeded retry fixture fails its
third bridge attempt. -/
def retryFailedFix : PinWallet :=
  { walletFix WalletStatus.FAILED 3 with
    lastBridgeError := some "insufficient liquidity"
    lastBridgeAttempt := some 1000 }

/-! ## Rounding lemmas -/

theorem round6_sub_le (x : ℚ) : |round6 x - x| ≤ 1 / 2000000 := by
  have h1 : ((⌊x * 1000000 + 1/2⌋ : ℤ) : ℚ) ≤ x * 1000000 + 1/2 := Int.floor_le _
  have h2 : x * 1000000 + 1/2 < ((⌊x * 1000000 + 1/2⌋ : ℤ) : ℚ) + 1 :=
    Int.lt_floor_add_one _
  rw [abs_le]
  unfold round6
  constructor <;> linarith

theorem round6_nonpos (x : ℚ) (hx : x ≤ 0) : round6 x ≤ 0 := by
  have h1 : ((⌊x * 1000000 + 1/2⌋ : ℤ) : ℚ) ≤ x * 1000000 + 1/2 := Int.floor_le _
  have h3 : (⌊x * 1000000 + 1/2⌋ : ℤ) < 1 := by
    have : ((⌊x * 1000000 + 1/2⌋ : ℤ) : ℚ) < 1 := by nlinarith
    exact_mod_cast this
  have h4 : ((⌊x * 1000000 + 1/2⌋ : ℤ) : ℚ) ≤ 0 := by
    have : (⌊x * 1000000 + 1/2⌋ : ℤ) ≤ 0 := by omega
    exact_mod_cast this
  unfold round6
  linarith

theorem round2_eq_self (x : ℚ) (h : ∃ m : ℤ, x * 100 = m) : round2 x = x := by
  obtain ⟨m, hm⟩ := h
  have hfloor : ⌊x * 100 + 1/2⌋ = m := by
    rw [hm]
    rw [show ((m : ℚ) + 1/2) = 1/2 + m by ring]
    rw [Int.floor_add_int]
    norm_num
  unfold round2
  rw [hfloor]
  have : x = (m : ℚ) / 100 := by
    field_simp
    linarith [hm]
  linarith [this]

/-! ## List helper lemmas -/

theorem length_replaceFirst (p : α → Bool) (f : α → α) (l : List α) :
    (replaceFirst p f l).length = l.length := by
  induction l with
  | nil => rfl
  | cons x xs ih =>
    unfold replaceFirst
    by_cases h : p x <;> simp [h, ih]

theorem getElem?_replaceFirst_of_pred_false (p : α → Bool) (f : α → α)
    (l : List α) (i : Nat) (x : α) (hx : l[i]? = some x) (hp : p x = false) :
    (replaceFirst p f l)[i]? = some x := by
  induction l generalizing i with
  | nil => simp at hx
  | cons y ys ih =>
    unfold replaceFirst
    by_cases h : p y
    · cases i with
      | zero =>
        simp at hx
        subst hx
        simp [h] at hp
      | succ j => simpa [h] using hx
    · cases i with
      | zero =>
        simp only [h, Bool.false_eq_true, if_false]
        simpa using hx
      | succ j =>
        simp only [h, Bool.false_eq_true, if_false]
        simp only [List.getElem?_cons_succ] at hx ⊢
        exact ih j hx

theorem firstIdx_spec (p : α → Bool) (l : List α) (i : Nat)
    (h : firstIdx p l = some i) :
    ∃ x, l[i]? = some x ∧ p x = true ∧ l.find? p = some x ∧
      ∀ f, (replaceFirst p f l)[i]? = some (f x) := by
  induction l generalizing i with
  | nil => simp [firstIdx] at h
  | cons y ys ih =>
    unfold firstIdx at h
    by_cases hy : p y
    · simp only [hy, if_true] at h
      obtain rfl : 0 = i := by simpa using h
      refine ⟨y, by simp, hy, by simp [List.find?, hy], ?_⟩
      intro f
      unfold replaceFirst
      simp [hy]
    · simp only [hy, Bool.false_eq_true, if_false, Option.map_eq_some'] at h
      obtain ⟨j, hj, rfl⟩ := h
      obtain ⟨x, hx1, hx2, hx3, hx4⟩ := ih j hj
      refine ⟨x, by simpa using hx1, hx2, ?_, ?_⟩
      · rw [List.find?_cons_of_neg _ (by simp [hy])]
        exact hx3
      · intro f
        unfold replaceFirst
        simp only [hy, Bool.false_eq_true, if_false]
        simpa using hx4 f

/-! ## Structural lemmas about the settlement operations -/

theorem settleTryBlock_appends (env : Env) (wallets : List PinWallet)
    (w : PinWallet) (ci : ChainInfo) (d c a : String) (fb : FeeBreakdown) :
    ∃ w', (settleTryBlock env wallets w ci d c a fb).2.1 = wallets ++ [w'] := by
  unfold settleTryBlock settleCatchBlock
  repeat' split
  all_goals exact ⟨_, rfl⟩

theorem claimTryBlock_shape (env : Env) (put : PinWallet → List PinWallet)
    (wallet1 : PinWallet) (ci : ChainInfo) (d c : String) (fb : FeeBreakdown) :
    ∃ w2, (claimTryBlock env put wallet1 ci d c fb).2.1 = put w2 ∧
      w2.destination = wallet1.destination ∧
      w2.targetChain = wallet1.targetChain ∧
      w2.amount = wallet1.amount := by
  unfold claimTryBlock claimCatchBlock
  repeat' split
  all_goals exact ⟨_, rfl, rfl, rfl, rfl⟩


theorem claimTryBlock_bridge_called (env : Env) (put : PinWallet → List PinWallet)
    (wallet1 : PinWallet) (ci : ChainInfo) (d c : String) (fb : FeeBreakdown)
    (hauth : env.auth = Except.ok ())
    (cid : String) (hcr : env.createChannelResult = Except.ok cid) :
    Event.callBridge d c wallet1.amount ∈ (claimTryBlock env put wallet1 ci d c fb).2.2 := by
  simp only [claimTryBlock, hauth, hcr]
  repeat' split
  all_goals simp [claimCatchBlock, List.mem_append]

theorem retryGo_ok_map (env : Env) (ws ws' : List PinWallet)
    (s f : Nat) (tr : List Event)
    (h : retryGo env ws = Except.ok (ws', s, f, tr)) :
    ws' = ws.map (retryStep env) := by
  induction ws generalizing ws' s f tr with
  | nil =>
    unfold retryGo at h
    simp only [Except.ok.injEq, Prod.mk.injEq] at h
    rw [← h.1]
    rfl
  | cons w rest ih =>
    by_cases hf : retryFilter w
    · rcases hd : w.destination with _ | d
      · simp only [retryGo, hf, if_true, hd] at h
        match hrec : retryGo env rest with
        | Except.error e => rw [hrec] at h; simp at h
        | Except.ok (ws0, s0, f0, tr0) =>
          rw [hrec] at h
          simp only [Except.ok.injEq, Prod.mk.injEq] at h
          rw [← h.1, ih ws0 s0 f0 tr0 hrec]
          simp [retryStep, hf, hd]
      · rcases hc : w.targetChain with _ | c
        · simp only [retryGo, hf, if_true, hd, hc] at h
          match hrec : retryGo env rest with
          | Except.error e => rw [hrec] at h; simp at h
          | Except.ok (ws0, s0, f0, tr0) =>
            rw [hrec] at h
            simp only [Except.ok.injEq, Prod.mk.injEq] at h
            rw [← h.1, ih ws0 s0 f0 tr0 hrec]
            simp [retryStep, hf, hd, hc]
        · simp only [retryGo, hf, if_true, hd, hc] at h
          match hbr : env.bridgeCall d c w.amount with
          | Except.error e => rw [hbr] at h; simp at h
          | Except.ok r =>
            rw [hbr] at h
            match hrec : retryGo env rest with
            | Except.error e => rw [hrec] at h; simp at h
            | Except.ok (ws0, s0, f0, tr0) =>
              rw [hrec] at h
              simp only [Except.ok.injEq, Prod.mk.injEq] at h
              rw [← h.1, ih ws0 s0 f0 tr0 hrec]
              simp [retryStep, hf, hd, hc, hbr]
    · simp only [retryGo, hf, Bool.false_eq_true, if_false] at h
      match hrec : retryGo env rest with
      | Except.error e => rw [hrec] at h; simp at h
      | Except.ok (ws0, s0, f0, tr0) =>
        rw [hrec] at h
        simp only [Except.ok.injEq, Prod.mk.injEq] at h
        rw [← h.1, ih ws0 s0 f0 tr0 hrec]
        simp [retryStep, hf]

/-! ## Decimal digit length of the generated PIN -/

theorem numDigits10_of_lt (n : Nat) (h : n < 10) : numDigits10 n = 1 := by
  unfold numDigits10
  rw [if_pos h]

theorem numDigits10_of_ge (n : Nat) (h : 10 ≤ n) :
    numDigits10 n = numDigits10 (n / 10) + 1 := by
  conv_lhs => unfold numDigits10
  rw [if_neg (by omega)]

theorem toDigitsCore_len_eq (fuel : Nat) :
    ∀ (n : Nat) (acc : List Char), n < fuel →
      (Nat.toDigitsCore 10 fuel n acc).length = numDigits10 n + acc.length := by
  induction fuel with
  | zero => intro n acc h; omega
  | succ f ih =>
    intro n acc h
    simp only [Nat.toDigitsCore]
    by_cases h0 : n / 10 = 0
    · rw [if_pos h0]
      rw [numDigits10_of_lt n (by omega)]
      simp
      omega
    · rw [if_neg h0]
      rw [ih (n / 10) _ (by omega)]
      rw [numDigits10_of_ge n (by omega)]
      simp
      omega

theorem repr_length_eq_numDigits10 (n : Nat) :
    (Nat.repr n).length = numDigits10 n := by
  show (Nat.toDigits 10 n).asString.length = numDigits10 n
  have : (Nat.toDigits 10 n).asString.length = (Nat.toDigits 10 n).length := rfl
  rw [this]
  show (Nat.toDigitsCore 10 (n + 1) n []).length = numDigits10 n
  rw [toDigitsCore_len_eq (n + 1) n [] (by omega)]
  rfl

theorem numDigits10_six (r : Nat) (h1 : 100000 ≤ r) (h2 : r < 1000000) :
    numDigits10 r = 6 := by
  rw [numDigits10_of_ge r (by omega)]
  rw [numDigits10_of_ge (r / 10) (by omega)]
  rw [numDigits10_of_ge (r / 10 / 10) (by omega)]
  rw [numDigits10_of_ge (r / 10 / 10 / 10) (by omega)]
  rw [numDigits10_of_ge (r / 10 / 10 / 10 / 10) (by omega)]
  rw [numDigits10_of_lt (r / 10 / 10 / 10 / 10 / 10) (by omega)]

/-! ## Fee calculator properties -/

theorem calculateFee_sum_close (a : ℚ) :
    |(calculateFee a).fee + (calculateFee a).netAmount - a| ≤ 1 / 1000000 := by
  have h1 := round6_sub_le (a * feeRateValue)
  have h2 := round6_sub_le (a - a * feeRateValue)
  have key : (calculateFee a).fee + (calculateFee a).netAmount - a =
      (round6 (a * feeRateValue) - a * feeRateValue) +
      (round6 (a - a * feeRateValue) - (a - a * feeRateValue)) := by
    show round6 (a * feeRateValue) + round6 (a - a * feeRateValue) - a = _
    ring
  rw [key]
  have h3 := abs_add (round6 (a * feeRateValue) - a * feeRateValue)
    (round6 (a - a * feeRateValue) - (a - a * feeRateValue))
  have : (1 : ℚ) / 2000000 + 1 / 2000000 = 1 / 1000000 := by norm_num
  linarith

/-- C5: for every positive amount, `calculateFee` returns the fee
`a × 0.00001` rounded to six decimals, the net amount `a` minus the fee
rounded to six decimals, and fee + net equals `a` within one millionth;
the function is a pure function of its argument. -/
theorem calculateFee_formula_and_balance (a : ℚ) (ha : 0 < a) :
    (calculateFee a).grossAmount = a ∧
    (calculateFee a).fee = round6 (a * feeRateValue) ∧
    (calculateFee a).netAmount = round6 (a - a * feeRateValue) ∧
    |(calculateFee a).fee + (calculateFee a).netAmount - a| ≤ 1 / 1000000 :=
  ⟨rfl, rfl, rfl, calculateFee_sum_close a⟩

theorem calculateFee_formula_and_balance_witness :
    (0 : ℚ) < 1 ∧
    ((calculateFee 1).grossAmount = 1 ∧
     (calculateFee 1).fee = round6 (1 * feeRateValue) ∧
     (calculateFee 1).netAmount = round6 (1 - 1 * feeRateValue) ∧
     |(calculateFee 1).fee + (calculateFee 1).netAmount - 1| ≤ 1 / 1000000) :=
  ⟨by norm_num, calculateFee_formula_and_balance 1 (by norm_num)⟩

/-- C6 counterexample: `calculateFee` applied to the non-positive amount
-5 does not fail; it returns an ordinary fee breakdown (there is no error
path in the function at all). -/
theorem calculateFee_neg_five_returns_breakdown :
    calculateFee (-5) = ⟨-5, -(1/20000), -(99999/20000), "0.001%"⟩ := by
  simp only [calculateFee, FeeBreakdown.mk.injEq]
  norm_num [round6, feeRateValue]

/-- C6 amended: `calculateFee` performs no input validation; for a
non-positive amount it still returns the formula breakdown (with a
non-positive fee), satisfying the same rounding identity, instead of
rejecting the input. -/
theorem calculateFee_no_input_validation (a : ℚ) (ha : a ≤ 0) :
    (calculateFee a).grossAmount = a ∧
    (calculateFee a).fee = round6 (a * feeRateValue) ∧
    (calculateFee a).fee ≤ 0 ∧
    |(calculateFee a).fee + (calculateFee a).netAmount - a| ≤ 1 / 1000000 := by
  refine ⟨rfl, rfl, ?_, calculateFee_sum_close a⟩
  show round6 (a * feeRateValue) ≤ 0
  apply round6_nonpos
  have hr : (0 : ℚ) ≤ feeRateValue := by unfold feeRateValue; norm_num
  exact mul_nonpos_of_nonpos_of_nonneg ha hr

theorem calculateFee_no_input_validation_witness :
    (-5 : ℚ) ≤ 0 ∧
    ((calculateFee (-5)).grossAmount = -5 ∧
     (calculateFee (-5)).fee = round6 (-5 * feeRateValue) ∧
     (calculateFee (-5)).fee ≤ 0 ∧
     |(calculateFee (-5)).fee + (calculateFee (-5)).netAmount - (-5)| ≤ 1 / 1000000) :=
  ⟨by norm_num, calculateFee_no_input_validation (-5) (by norm_num)⟩

/-! ## Generated identifiers -/

/-- C10: every generated wallet id is exactly six characters, each drawn
from the keypad alphabet 0-9A-D, and every generated PIN is the decimal
string of the random draw, which the secure random source keeps between
100000 and 999999 inclusive, hence always exactly six digits. -/
theorem generateWalletId_generatePin_shape (draw : Fin walletIdLength → Fin 14)
    (r : Nat) (h1 : 100000 ≤ r) (h2 : r < 1000000) :
    (generateWalletId draw).length = 6 ∧
    (∀ ch, ch ∈ (generateWalletId draw).data → ch ∈ walletIdChars) ∧
    generatePin r = Nat.repr r ∧
    100000 ≤ r ∧ r ≤ 999999 ∧
    (generatePin r).length = 6 := by
  refine ⟨?_, ?_, rfl, h1, by omega, ?_⟩
  · show ((List.finRange walletIdLength).map _).length = 6
    simp [walletIdLength]
  · intro ch hch
    have hdata : (generateWalletId draw).data =
        (List.finRange walletIdLength).map
          (fun i => walletIdChars.get (Fin.cast (by decide) (draw i))) := rfl
    rw [hdata] at hch
    obtain ⟨i, _, rfl⟩ := List.mem_map.mp hch
    exact List.get_mem _ _ _
  · show (Nat.repr r).length = 6
    rw [repr_length_eq_numDigits10]
    exact numDigits10_six r h1 h2

theorem generateWalletId_generatePin_shape_witness :
    100000 ≤ 123456 ∧ 123456 < 1000000 ∧
    ((generateWalletId (fun _ => ⟨0, by omega⟩)).length = 6 ∧
     (∀ ch, ch ∈ (generateWalletId (fun _ => ⟨0, by omega⟩)).data → ch ∈ walletIdChars) ∧
     generatePin 123456 = Nat.repr 123456 ∧
     100000 ≤ 123456 ∧ 123456 ≤ 999999 ∧
     (generatePin 123456).length = 6) :=
  ⟨by omega, by omega,
   generateWalletId_generatePin_shape (fun _ => ⟨0, by omega⟩) 123456 (by omega) (by omega)⟩

/-! ## Claim rejection path -/

/-- C3: a claim against a missing record, a record no longer in PENDING or
PENDING_BRIDGE, or with a PIN whose hash differs from the stored hash is
thrown out before any write: the stored collection is returned unchanged
(every record keeps its bridgeAttempts, status and destination fields; no
attempt penalty) and no persist or external call happens (empty trace). -/
theorem claimPinWallet_rejects_without_mutation (env : Env) (ws : List PinWallet)
    (walletId pin destination targetChainKey : String)
    (h : ws.find? (claimPred walletId) = none ∨
         ∃ w, ws.find? (claimPred walletId) = some w ∧ hashPin pin ≠ w.pinHash) :
    (∃ msg, (claimPinWallet env ws walletId pin destination targetChainKey).1 =
        Except.error msg) ∧
    (claimPinWallet env ws walletId pin destination targetChainKey).2.1 = ws ∧
    (claimPinWallet env ws walletId pin destination targetChainKey).2.2 = [] := by
  rcases h with hnone | ⟨w, hfind, hpin⟩
  · unfold claimPinWallet
    rw [hnone]
    exact ⟨⟨_, rfl⟩, rfl, rfl⟩
  · unfold claimPinWallet
    rw [hfind]
    dsimp only
    rw [if_pos hpin]
    exact ⟨⟨_, rfl⟩, rfl, rfl⟩

theorem claimPinWallet_rejects_without_mutation_witness :
    (∃ w, [walletFix WalletStatus.PENDING 0].find? (claimPred "9D9D9D") = some w ∧
      hashPin "222222" ≠ w.pinHash) ∧
    ((∃ msg, (claimPinWallet envCloseBoom [walletFix WalletStatus.PENDING 0]
        "9D9D9D" "222222" "0xNEW" "base").1 = Except.error msg) ∧
     (claimPinWallet envCloseBoom [walletFix WalletStatus.PENDING 0]
        "9D9D9D" "222222" "0xNEW" "base").2.1 = [walletFix WalletStatus.PENDING 0] ∧
     (claimPinWallet envCloseBoom [walletFix WalletStatus.PENDING 0]
        "9D9D9D" "222222" "0xNEW" "base").2.2 = []) :=
  ⟨⟨walletFix WalletStatus.PENDING 0, by decide, by decide⟩,
   claimPinWallet_rejects_without_mutation envCloseBoom
     [walletFix WalletStatus.PENDING 0] "9D9D9D" "222222" "0xNEW" "base"
     (Or.inr ⟨walletFix WalletStatus.PENDING 0, by decide, by decide⟩)⟩

/-! ## Settlement anchoring -/

/-- C1: with a supported chain, `settleToChain` persists the new
PENDING_BRIDGE recovery record (carrying destination, chain, amount,
zero attempts) as the very first event of the invocation, before any
external call; and when the first external call throws (lazy
authentication, or channel creation when already authenticated), the
persisted collection afterwards still carries that record, now with
bridgeAttempts = 1. -/
theorem settleToChain_anchors_before_externals (env : Env) (ws : List PinWallet)
    (destination targetChainKey amount : String) (ci : ChainInfo)
    (hchain : getChainByKey targetChainKey = some ci) :
    (∃ ws1 w, (settleToChain env ws destination targetChainKey amount).2.2.head? =
        some (Event.persistWallets ws1) ∧
      ws1 = ws ++ [w] ∧
      w.status = WalletStatus.PENDING_BRIDGE ∧
      w.destination = some destination ∧
      w.targetChain = some targetChainKey ∧
      w.amount = amount ∧
      w.bridgeAttempts = 0) ∧
    (∀ e, env.isAuthenticated = false → env.authResult = Except.error e →
      ∃ w', (settleToChain env ws destination targetChainKey amount).2.1 = ws ++ [w'] ∧
        w'.status = WalletStatus.PENDING_BRIDGE ∧
        w'.bridgeAttempts = 1 ∧
        w'.destination = some destination ∧
        w'.targetChain = some targetChainKey ∧
        w'.amount = amount) ∧
    (∀ e, env.isAuthenticated = true → env.createChannelResult = Except.error e →
      ∃ w', (settleToChain env ws destination targetChainKey amount).2.1 = ws ++ [w'] ∧
        w'.status = WalletStatus.PENDING_BRIDGE ∧
        w'.bridgeAttempts = 1 ∧
        w'.destination = some destination ∧
        w'.targetChain = some targetChainKey ∧
        w'.amount = amount) := by
  unfold settleToChain
  rw [hchain]
  dsimp only
  refine ⟨⟨_, _, rfl, rfl, rfl, rfl, rfl, rfl, rfl⟩, ?_, ?_⟩
  · intro e hA hE
    have hauth : env.auth = Except.error e := by
      unfold Env.auth
      rw [hA, hE]
      simp
    simp only [settleTryBlock, hauth, settleCatchBlock]
    exact ⟨_, rfl, rfl, rfl, rfl, rfl, rfl⟩
  · intro e hA hE
    have hauth : env.auth = Except.ok () := by
      unfold Env.auth
      rw [hA]
      simp
    simp only [settleTryBlock, hauth, hE, settleCatchBlock]
    exact ⟨_, rfl, rfl, rfl, rfl, rfl, rfl⟩

theorem settleToChain_anchors_before_externals_witness :
    getChainByKey "base" = some (mkChain "Base Sepolia" "Base_Sepolia" 84532
      "https://sepolia.basescan.org" "https://sepolia.base.org") ∧
    ((∃ ws1 w, (settleToChain envAuthBoom [] "0xabc" "base" "5.00").2.2.head? =
        some (Event.persistWallets ws1) ∧
      ws1 = [] ++ [w] ∧
      w.status = WalletStatus.PENDING_BRIDGE ∧
      w.destination = some "0xabc" ∧
      w.targetChain = some "base" ∧
      w.amount = "5.00" ∧
      w.bridgeAttempts = 0) ∧
    (∀ e, envAuthBoom.isAuthenticated = false →
      envAuthBoom.authResult = Except.error e →
      ∃ w', (settleToChain envAuthBoom [] "0xabc" "base" "5.00").2.1 = [] ++ [w'] ∧
        w'.status = WalletStatus.PENDING_BRIDGE ∧
        w'.bridgeAttempts = 1 ∧
        w'.destination = some "0xabc" ∧
        w'.targetChain = some "base" ∧
        w'.amount = "5.00") ∧
    (∀ e, envAuthBoom.isAuthenticated = true →
      envAuthBoom.createChannelResult = Except.error e →
      ∃ w', (settleToChain envAuthBoom [] "0xabc" "base" "5.00").2.1 = [] ++ [w'] ∧
        w'.status = WalletStatus.PENDING_BRIDGE ∧
        w'.bridgeAttempts = 1 ∧
        w'.destination = some "0xabc" ∧
        w'.targetChain = some "base" ∧
        w'.amount = "5.00")) :=
  ⟨by decide,
   settleToChain_anchors_before_externals envAuthBoom [] "0xabc" "base" "5.00"
     (mkChain "Base Sepolia" "Base_Sepolia" 84532
       "https://sepolia.basescan.org" "https://sepolia.base.org") (by decide)⟩

/-- C2 counterexample: with every call up to the bridge succeeding and the
bridge reporting success, a thrown channel-existence check is not
swallowed: the wallet is left PENDING_BRIDGE with one attempt and the
returned result reports failure, so the bridge result is overwritten. -/
theorem settle_channel_check_throw_masks_bridge_success :
    (envQueryBoom.bridgeCall "0xdest" "base" "1.00").toOption.map
      BridgeResult.success = some true ∧
    (settleToChain envQueryBoom [] "0xdest" "base" "1.00").1.toOption.map
      SettlementResult.success = some false ∧
    (settleToChain envQueryBoom [] "0xdest" "base" "1.00").2.1.map
      PinWallet.status = [WalletStatus.PENDING_BRIDGE] ∧
    (settleToChain envQueryBoom [] "0xdest" "base" "1.00").2.1.map
      PinWallet.bridgeAttempts = [1] := by
  refine ⟨rfl, ?_, ?_, ?_⟩ <;> decide

/-- C2 amended: once the bridge call has returned, a failure of the
closeChannel call itself is logged and swallowed and never changes the
recorded outcome: whenever the bridge reports success and the
channel-existence check returns (with either answer), the record is marked
SETTLED carrying the bridge transaction hash and the result has
success = true, regardless of the closeChannel outcome (which the control
flow never consults).  A thrown channel-existence check, by contrast,
escapes to the catch handler (spec §4.3 step 8), as the counterexample
shows. -/
theorem settle_bridge_outcome_authoritative (env : Env) (ws : List PinWallet)
    (destination targetChainKey amount : String) (ci : ChainInfo)
    (cid : String) (br : BridgeResult) (b : Bool)
    (hchain : getChainByKey targetChainKey = some ci)
    (hauth : env.auth = Except.ok ())
    (hcreate : env.createChannelResult = Except.ok cid)
    (hbridge : env.bridgeCall destination targetChainKey amount = Except.ok br)
    (hsucc : br.success = true)
    (hq : env.channelQueryResult = Except.ok b) :
    (∃ res, (settleToChain env ws destination targetChainKey amount).1 =
        Except.ok res ∧
      res.success = true ∧ res.bridgeResult = some br) ∧
    (∃ w', (settleToChain env ws destination targetChainKey amount).2.1 =
        ws ++ [w'] ∧
      w'.status = WalletStatus.SETTLED ∧
      w'.bridgeTxHash = br.txHash ∧
      w'.settledAt = some env.now) := by
  unfold settleToChain
  rw [hchain]
  dsimp only
  simp only [settleTryBlock, hauth, hcreate, hbridge, hq, hsucc, if_true]
  exact ⟨⟨_, rfl, rfl, rfl⟩, ⟨_, rfl, rfl, rfl, rfl⟩⟩

theorem settle_bridge_outcome_authoritative_witness :
    getChainByKey "base" = some (mkChain "Base Sepolia" "Base_Sepolia" 84532
      "https://sepolia.basescan.org" "https://sepolia.base.org") ∧
    envCloseBoom.auth = Except.ok () ∧
    envCloseBoom.createChannelResult = Except.ok "ch-1" ∧
    envCloseBoom.bridgeCall "0xdest" "base" "1.00" = Except.ok bridgeOkResult ∧
    bridgeOkResult.success = true ∧
    envCloseBoom.channelQueryResult = Except.ok true ∧
    envCloseBoom.closeChannelResult = Except.error "close rejected" ∧
    ((∃ res, (settleToChain envCloseBoom [] "0xdest" "base" "1.00").1 =
        Except.ok res ∧
      res.success = true ∧ res.bridgeResult = some bridgeOkResult) ∧
    (∃ w', (settleToChain envCloseBoom [] "0xdest" "base" "1.00").2.1 =
        [] ++ [w'] ∧
      w'.status = WalletStatus.SETTLED ∧
      w'.bridgeTxHash = bridgeOkResult.txHash ∧
      w'.settledAt = some envCloseBoom.now)) :=
  ⟨by decide, rfl, rfl, rfl, rfl, rfl, rfl,
   settle_bridge_outcome_authoritative envCloseBoom [] "0xdest" "base" "1.00"
     (mkChain "Base Sepolia" "Base_Sepolia" 84532
       "https://sepolia.basescan.org" "https://sepolia.base.org")
     "ch-1" bridgeOkResult true (by decide) rfl rfl rfl rfl rfl⟩

/-! ## Claim destination handling -/

/-- C8 counterexample: a record that already carries destination "0xOLD"
and target chain "ethereum" does not keep its stored values: claiming it
with destination "0xNEW" and chain "base" persists the record with the
call's arguments. -/
theorem claim_overwrites_stored_destination_cex :
    (walletFix WalletStatus.PENDING_BRIDGE 0).destination = some "0xOLD" ∧
    (walletFix WalletStatus.PENDING_BRIDGE 0).targetChain = some "ethereum" ∧
    (claimPinWallet envAuthBoom [walletFix WalletStatus.PENDING_BRIDGE 0]
      "9D9D9D" "111111" "0xNEW" "base").2.1.map PinWallet.destination =
      [some "0xNEW"] ∧
    (claimPinWallet envAuthBoom [walletFix WalletStatus.PENDING_BRIDGE 0]
      "9D9D9D" "111111" "0xNEW" "base").2.1.map PinWallet.targetChain =
      [some "base"] := by
  refine ⟨rfl, rfl, ?_, ?_⟩ <;> decide

/-- C8 amended: on a PIN match with a supported chain, `claimPinWallet`
always overwrites the record's destination and targetChain with the call's
arguments — also when the record already carries values — and the
subsequent stage 3-5 protocol runs against the record's stored amount (the
bridge call carries `wallet.amount`). -/
theorem claim_overwrites_destination (env : Env) (ws : List PinWallet)
    (walletId pin destination targetChainKey : String) (ci : ChainInfo)
    (i : Nat) (w : PinWallet)
    (hidx : firstIdx (claimPred walletId) ws = some i)
    (hw : ws[i]? = some w)
    (hpin : hashPin pin = w.pinHash)
    (hchain : getChainByKey targetChainKey = some ci) :
    (∃ w2, (claimPinWallet env ws walletId pin destination targetChainKey).2.1[i]? =
        some w2 ∧
      w2.destination = some destination ∧
      w2.targetChain = some targetChainKey ∧
      w2.amount = w.amount) ∧
    (env.auth = Except.ok () → ∀ cid, env.createChannelResult = Except.ok cid →
      Event.callBridge destination targetChainKey w.amount ∈
        (claimPinWallet env ws walletId pin destination targetChainKey).2.2) := by
  obtain ⟨x, hx1, hx2, hx3, hx4⟩ := firstIdx_spec (claimPred walletId) ws i hidx
  have hxw : x = w := by
    rw [hw] at hx1
    exact (Option.some.inj hx1).symm
  subst hxw
  unfold claimPinWallet
  rw [hx3]
  dsimp only
  rw [if_neg (fun hne => hne hpin), hchain]
  dsimp only
  constructor
  · obtain ⟨w2, hput, hd, hc, ha⟩ := claimTryBlock_shape env
      (fun w' => replaceFirst (claimPred walletId) (fun _ => w') ws)
      { x with destination := some destination, targetChain := some targetChainKey }
      ci destination targetChainKey
      (calculateFee ((parseDecimal x.amount).getD 0))
    rw [hput]
    exact ⟨w2, hx4 (fun _ => w2), by rw [hd], by rw [hc], by rw [ha]⟩
  · intro hauth cid hcr
    have := claimTryBlock_bridge_called env
      (fun w' => replaceFirst (claimPred walletId) (fun _ => w') ws)
      { x with destination := some destination, targetChain := some targetChainKey }
      ci destination targetChainKey
      (calculateFee ((parseDecimal x.amount).getD 0)) hauth cid hcr
    exact List.mem_cons_of_mem _ this

theorem claim_overwrites_destination_witness :
    firstIdx (claimPred "9D9D9D") [walletFix WalletStatus.PENDING_BRIDGE 0] = some 0 ∧
    [walletFix WalletStatus.PENDING_BRIDGE 0][0]? =
      some (walletFix WalletStatus.PENDING_BRIDGE 0) ∧
    hashPin "111111" = (walletFix WalletStatus.PENDING_BRIDGE 0).pinHash ∧
    ((∃ w2, (claimPinWallet envCloseBoom [walletFix WalletStatus.PENDING_BRIDGE 0]
        "9D9D9D" "111111" "0xNEW" "base").2.1[0]? = some w2 ∧
      w2.destination = some "0xNEW" ∧
      w2.targetChain = some "base" ∧
      w2.amount = (walletFix WalletStatus.PENDING_BRIDGE 0).amount) ∧
    (envCloseBoom.auth = Except.ok () → ∀ cid,
      envCloseBoom.createChannelResult = Except.ok cid →
      Event.callBridge "0xNEW" "base" (walletFix WalletStatus.PENDING_BRIDGE 0).amount ∈
        (claimPinWallet envCloseBoom [walletFix WalletStatus.PENDING_BRIDGE 0]
          "9D9D9D" "111111" "0xNEW" "base").2.2)) :=
  ⟨by decide, by decide, rfl,
   claim_overwrites_destination envCloseBoom [walletFix WalletStatus.PENDING_BRIDGE 0]
     "9D9D9D" "111111" "0xNEW" "base"
     (mkChain "Base Sepolia" "Base_Sepolia" 84532
       "https://sepolia.basescan.org" "https://sepolia.base.org")
     0 (walletFix WalletStatus.PENDING_BRIDGE 0)
     (by decide) (by decide) rfl (by decide)⟩

/-! ## Retry sweep semantics -/

/-- C4: a completed `retryPendingBridges` sweep touches exactly the stored
records in PENDING_BRIDGE with fewer than 3 attempts that carry both
destination and target chain — every other record (in particular any with
bridgeAttempts ≥ 3) is returned unchanged; a touched record becomes
SETTLED with the bridge tx hash and settledAt on success, and on failure
its counter is incremented and its status becomes FAILED exactly when the
incremented counter reaches 3. -/
theorem retryPendingBridges_semantics (env : Env) (ws : List PinWallet)
    (summary : RetrySummary) (ws' : List PinWallet) (tr : List Event)
    (h : retryPendingBridges env ws = (Except.ok summary, ws', tr)) :
    ws'.length = ws.length ∧
    ∀ (i : Nat) (w : PinWallet), ws[i]? = some w →
      ((w.status ≠ WalletStatus.PENDING_BRIDGE ∨ 3 ≤ w.bridgeAttempts ∨
        w.destination = none ∨ w.targetChain = none) → ws'[i]? = some w) ∧
      (∀ d c r, w.status = WalletStatus.PENDING_BRIDGE → w.bridgeAttempts < 3 →
        w.destination = some d → w.targetChain = some c →
        env.bridgeCall d c w.amount = Except.ok r →
        (r.success = true →
          ∃ w2, ws'[i]? = some w2 ∧ w2.status = WalletStatus.SETTLED ∧
            w2.bridgeTxHash = r.txHash ∧ w2.settledAt = some env.now) ∧
        (r.success = false → w.bridgeAttempts + 1 = 3 →
          ∃ w2, ws'[i]? = some w2 ∧ w2.status = WalletStatus.FAILED ∧
            w2.bridgeAttempts = 3) ∧
        (r.success = false → w.bridgeAttempts + 1 < 3 →
          ∃ w2, ws'[i]? = some w2 ∧ w2.status = WalletStatus.PENDING_BRIDGE ∧
            w2.bridgeAttempts = w.bridgeAttempts + 1)) := by
  have hmap : ws' = ws.map (retryStep env) := by
    unfold retryPendingBridges at h
    match hgo : retryGo env ws with
    | Except.error e =>
      rw [hgo] at h
      simp at h
    | Except.ok (ws0, s0, f0, tr0) =>
      rw [hgo] at h
      simp only [Prod.mk.injEq] at h
      rw [← h.2.1]
      exact retryGo_ok_map env ws ws0 s0 f0 tr0 hgo
  subst hmap
  refine ⟨List.length_map _ _, ?_⟩
  intro i w hw
  have hws' : (ws.map (retryStep env))[i]? = some (retryStep env w) := by
    rw [List.getElem?_map, hw]
    rfl
  constructor
  · intro hno
    rw [hws']
    have : retryStep env w = w := by
      rcases hno with hst | hat | hd | hc
      · unfold retryStep
        rw [if_neg (by simp [retryFilter, hst])]
      · unfold retryStep
        rw [if_neg (by simp [retryFilter]; omega)]
      · unfold retryStep
        by_cases hf : retryFilter w
        · rw [if_pos hf, hd]
        · rw [if_neg hf]
      · unfold retryStep
        by_cases hf : retryFilter w
        · rw [if_pos hf, hc]
          rcases w.destination with _ | d <;> rfl
        · rw [if_neg hf]
    rw [this]
  · intro d c r hst hat hd hc hbr
    have hf : retryFilter w = true := by
      simp [retryFilter, hst]
      omega
    have hstep : retryStep env w =
        (if r.success then
          { w with
            status := WalletStatus.SETTLED
            bridgeTxHash := r.txHash
            settledAt := some env.now }
        else
          let wi := { w with
            bridgeAttempts := w.bridgeAttempts + 1
            lastBridgeError := r.error
            lastBridgeAttempt := some env.now }
          if 3 ≤ wi.bridgeAttempts then { wi with status := WalletStatus.FAILED }
          else wi) := by
      unfold retryStep
      rw [if_pos hf, hd, hc]
      dsimp only
      rw [hbr]
    refine ⟨?_, ?_, ?_⟩
    · intro hs
      rw [hws', hstep, if_pos hs]
      exact ⟨_, rfl, rfl, rfl, rfl⟩
    · intro hs h3
      rw [hws', hstep, if_neg (by rw [hs]; simp)]
      dsimp only
      rw [if_pos (by omega)]
      exact ⟨_, rfl, rfl, h3⟩
    · intro hs h3
      rw [hws', hstep, if_neg (by rw [hs]; simp)]
      dsimp only
      rw [if_neg (by omega)]
      exact ⟨_, rfl, hst, rfl⟩

theorem retryPendingBridges_semantics_witness :
    retryPendingBridges envBridgeFail [walletFix WalletStatus.PENDING_BRIDGE 2] =
      (Except.ok ⟨1, 0, 1⟩, [retryFailedFix],
        [Event.callBridge "0xOLD" "ethereum" "2.00",
         Event.persistWallets [retryFailedFix]]) ∧
    ([retryFailedFix].length = [walletFix WalletStatus.PENDING_BRIDGE 2].length ∧
     ∀ (i : Nat) (w : PinWallet),
       [walletFix WalletStatus.PENDING_BRIDGE 2][i]? = some w →
       ((w.status ≠ WalletStatus.PENDING_BRIDGE ∨ 3 ≤ w.bridgeAttempts ∨
         w.destination = none ∨ w.targetChain = none) →
           [retryFailedFix][i]? = some w) ∧
       (∀ d c r, w.status = WalletStatus.PENDING_BRIDGE → w.bridgeAttempts < 3 →
         w.destination = some d → w.targetChain = some c →
         envBridgeFail.bridgeCall d c w.amount = Except.ok r →
         (r.success = true →
           ∃ w2, [retryFailedFix][i]? = some w2 ∧
             w2.status = WalletStatus.SETTLED ∧
             w2.bridgeTxHash = r.txHash ∧ w2.settledAt = some envBridgeFail.now) ∧
         (r.success = false → w.bridgeAttempts + 1 = 3 →
           ∃ w2, [retryFailedFix][i]? = some w2 ∧
             w2.status = WalletStatus.FAILED ∧ w2.bridgeAttempts = 3) ∧
         (r.success = false → w.bridgeAttempts + 1 < 3 →
           ∃ w2, [retryFailedFix][i]? = some w2 ∧
             w2.status = WalletStatus.PENDING_BRIDGE ∧
             w2.bridgeAttempts = w.bridgeAttempts + 1))) :=
  ⟨rfl,
   retryPendingBridges_semantics envBridgeFail
     [walletFix WalletStatus.PENDING_BRIDGE 2] ⟨1, 0, 1⟩ [retryFailedFix]
     [Event.callBridge "0xOLD" "ethereum" "2.00",
      Event.persistWallets [retryFailedFix]] rfl⟩

/-! ## Frozen terminal records -/

theorem settleToChain_state_shape (env : Env) (ws : List PinWallet)
    (d c a : String) :
    (settleToChain env ws d c a).2.1 = ws ∨
    ∃ w', (settleToChain env ws d c a).2.1 = ws ++ [w'] := by
  unfold settleToChain
  rcases hch : getChainByKey c with _ | ci
  · exact Or.inl rfl
  · right
    dsimp only
    exact settleTryBlock_appends env ws _ ci d c a _

theorem claimPinWallet_state_shape (env : Env) (ws : List PinWallet)
    (wid pin d c : String) :
    (claimPinWallet env ws wid pin d c).2.1 = ws ∨
    ∃ w2, (claimPinWallet env ws wid pin d c).2.1 =
      replaceFirst (claimPred wid) (fun _ => w2) ws := by
  unfold claimPinWallet
  rcases hfind : ws.find? (claimPred wid) with _ | w
  · exact Or.inl rfl
  · dsimp only
    by_cases hpin : hashPin pin ≠ w.pinHash
    · rw [if_pos hpin]
      exact Or.inl rfl
    · rw [if_neg hpin]
      rcases hch : getChainByKey c with _ | ci
      · exact Or.inl rfl
      · right
        dsimp only
        obtain ⟨w2, hput, -, -, -⟩ := claimTryBlock_shape env
          (fun w' => replaceFirst (claimPred wid) (fun _ => w') ws)
          { w with destination := some d, targetChain := some c } ci d c
          (calculateFee ((parseDecimal w.amount).getD 0))
        exact ⟨w2, hput⟩

/-- C9: once a record's status is SETTLED or FAILED, none of the four
operations changes any of its fields: `settleToChain` and `createPinWallet`
only append a new record, `claimPinWallet` only rewrites a record selected
with status PENDING or PENDING_BRIDGE, and `retryPendingBridges` only
rewrites records selected with status PENDING_BRIDGE. -/
theorem terminal_records_frozen :
    (∀ (env : Env) (ws : List PinWallet) (d c a : String) (i : Nat) (w : PinWallet),
      ws[i]? = some w →
      w.status = WalletStatus.SETTLED ∨ w.status = WalletStatus.FAILED →
      (settleToChain env ws d c a).2.1[i]? = some w) ∧
    (∀ (env : Env) (ws : List PinWallet) (amt : String) (i : Nat) (w : PinWallet),
      ws[i]? = some w →
      w.status = WalletStatus.SETTLED ∨ w.status = WalletStatus.FAILED →
      (createPinWallet env ws amt).2.1[i]? = some w) ∧
    (∀ (env : Env) (ws : List PinWallet) (wid pin d c : String) (i : Nat) (w : PinWallet),
      ws[i]? = some w →
      w.status = WalletStatus.SETTLED ∨ w.status = WalletStatus.FAILED →
      (claimPinWallet env ws wid pin d c).2.1[i]? = some w) ∧
    (∀ (env : Env) (ws : List PinWallet) (i : Nat) (w : PinWallet),
      ws[i]? = some w →
      w.status = WalletStatus.SETTLED ∨ w.status = WalletStatus.FAILED →
      (retryPendingBridges env ws).2.1[i]? = some w) := by
  have happend : ∀ (ws : List PinWallet) (x : PinWallet) (i : Nat) (w : PinWallet),
      ws[i]? = some w → (ws ++ [x])[i]? = some w := by
    intro ws x i w hw
    rw [List.getElem?_append_left (List.getElem?_eq_some.mp hw).1]
    exact hw
  refine ⟨?_, ?_, ?_, ?_⟩
  · intro env ws d c a i w hw _
    rcases settleToChain_state_shape env ws d c a with hs | ⟨w', hs⟩
    · rw [hs]; exact hw
    · rw [hs]; exact happend ws w' i w hw
  · intro env ws amt i w hw _
    exact happend ws _ i w hw
  · intro env ws wid pin d c i w hw hterm
    have hpred : claimPred wid w = false := by
      rcases hterm with hst | hst <;> simp [claimPred, hst]
    rcases claimPinWallet_state_shape env ws wid pin d c with hs | ⟨w2, hs⟩
    · rw [hs]; exact hw
    · rw [hs]; exact getElem?_replaceFirst_of_pred_false _ _ ws i w hw hpred
  · intro env ws i w hw hterm
    have hstep : retryStep env w = w := by
      unfold retryStep
      rw [if_neg]
      rcases hterm with hst | hst <;> simp [retryFilter, hst]
    unfold retryPendingBridges
    rcases hgo : retryGo env ws with e | ⟨ws0, s0, f0, tr0⟩
    · exact hw
    · dsimp only
      rw [retryGo_ok_map env ws ws0 s0 f0 tr0 hgo, List.getElem?_map, hw]
      simp [hstep]

theorem terminal_records_frozen_witness :
    [walletFix WalletStatus.SETTLED 1][0]? = some (walletFix WalletStatus.SETTLED 1) ∧
    (walletFix WalletStatus.SETTLED 1).status = WalletStatus.SETTLED ∧
    (claimPinWallet envCloseBoom [walletFix WalletStatus.SETTLED 1]
      "9D9D9D" "111111" "0xNEW" "base").2.1[0]? =
      some (walletFix WalletStatus.SETTLED 1) ∧
    (retryPendingBridges envBridgeFail [walletFix WalletStatus.SETTLED 1]).2.1[0]? =
      some (walletFix WalletStatus.SETTLED 1) ∧
    (settleToChain envCloseBoom [walletFix WalletStatus.SETTLED 1]
      "0xdest" "base" "1.00").2.1[0]? = some (walletFix WalletStatus.SETTLED 1) ∧
    (createPinWallet envCloseBoom [walletFix WalletStatus.SETTLED 1] "3.00").2.1[0]? =
      some (walletFix WalletStatus.SETTLED 1) :=
  ⟨rfl, rfl,
   terminal_records_frozen.2.2.1 envCloseBoom [walletFix WalletStatus.SETTLED 1]
     "9D9D9D" "111111" "0xNEW" "base" 0 (walletFix WalletStatus.SETTLED 1) rfl
     (Or.inl rfl),
   terminal_records_frozen.2.2.2 envBridgeFail [walletFix WalletStatus.SETTLED 1]
     0 (walletFix WalletStatus.SETTLED 1) rfl (Or.inl rfl),
   terminal_records_frozen.1 envCloseBoom [walletFix WalletStatus.SETTLED 1]
     "0xdest" "base" "1.00" 0 (walletFix WalletStatus.SETTLED 1) rfl (Or.inl rfl),
   terminal_records_frozen.2.1 envCloseBoom [walletFix WalletStatus.SETTLED 1]
     "3.00" 0 (walletFix WalletStatus.SETTLED 1) rfl (Or.inl rfl)⟩

/-! ## Session deposits -/

theorem parse_0001 : parseDecimal "0.001" = some (1/1000) := by
  rw [parseDecimal, show parseParts "0.001" = some (false, 0, 1, 3) from by decide]
  norm_num [decValue]

theorem parse_250 : parseDecimal "2.50" = some (5/2) := by
  rw [parseDecimal, show parseParts "2.50" = some (false, 2, 50, 2) from by decide]
  norm_num [decValue]

/-- C7 counterexample: depositing the positive amount "0.001" into an
ACTIVE session with zero balance leaves both persisted balances at 0 (the
code stores `toFixed(2)` of the sum), so neither balance increased by
exactly the deposited amount 0.001. -/
theorem deposit_subcent_not_exact_cex :
    parseDecimal "0.001" = some (1/1000) ∧
    (0 : ℚ) < 1/1000 ∧
    (depositToSession envCloseBoom [sessionFix] "S1" "0.001").2.1.map
      KioskSession.totalDeposited = [0] ∧
    (depositToSession envCloseBoom [sessionFix] "S1" "0.001").2.1.map
      KioskSession.currentBalance = [0] ∧
    sessionFix.totalDeposited = 0 ∧ sessionFix.currentBalance = 0 ∧
    (0 : ℚ) + 1/1000 ≠ 0 := by
  refine ⟨parse_0001, by norm_num, ?_, ?_, rfl, rfl, by norm_num⟩ <;>
  · unfold depositToSession
    simp only [show List.find? (sessionPred "S1") [sessionFix] = some sessionFix from rfl,
      parse_0001]
    rw [if_neg (by norm_num)]
    simp only [show sessionFix.channelId = some "ch-9" from rfl,
      show envCloseBoom.auth = Except.ok () from rfl,
      show envCloseBoom.resizeChannelResult = Except.ok () from rfl]
    simp only [replaceFirst, if_pos (show sessionPred "S1" sessionFix = true from by decide)]
    simp only [depositUpdate, List.map]
    norm_num [sessionFix, round2]

/-- C7 amended: for an ACTIVE session and a positive parsed amount,
`depositToSession` sets both persisted balances to `toFixed(2)` of old
value plus deposit — regardless of whether the channel resize succeeded or
threw — which equals an increase by exactly the deposited amount whenever
the old balance and the amount are whole numbers of cents (so 5.00 then
2.50 yields 7.50); a non-numeric or non-positive amount is rejected with
no state change and no persist or external call. -/
theorem depositToSession_semantics (env : Env) (ss : List KioskSession)
    (sessionId amount : String) :
    (∀ (s : KioskSession) (a : ℚ), ss.find? (sessionPred sessionId) = some s →
      parseDecimal amount = some a → 0 < a →
      (∃ res, (depositToSession env ss sessionId amount).1 = Except.ok res ∧
        res.newBalance = round2 (s.currentBalance + a) ∧
        res.totalDeposited = round2 (s.totalDeposited + a)) ∧
      (∃ s1, (depositToSession env ss sessionId amount).2.1 =
          replaceFirst (sessionPred sessionId) (fun _ => s1) ss ∧
        s1.currentBalance = round2 (s.currentBalance + a) ∧
        s1.totalDeposited = round2 (s.totalDeposited + a)) ∧
      ((∃ m : ℤ, s.currentBalance * 100 = m) → (∃ m : ℤ, a * 100 = m) →
        round2 (s.currentBalance + a) = s.currentBalance + a) ∧
      ((∃ m : ℤ, s.totalDeposited * 100 = m) → (∃ m : ℤ, a * 100 = m) →
        round2 (s.totalDeposited + a) = s.totalDeposited + a)) ∧
    ((parseDecimal amount = none ∨ ∃ a, parseDecimal amount = some a ∧ a ≤ 0) →
      (∃ msg, (depositToSession env ss sessionId amount).1 = Except.error msg) ∧
      (depositToSession env ss sessionId amount).2.1 = ss ∧
      (depositToSession env ss sessionId amount).2.2 = []) := by
  constructor
  · intro s a hfind hparse hpos
    have hexact : ∀ x : ℚ, (∃ m : ℤ, x * 100 = m) → (∃ m : ℤ, a * 100 = m) →
        round2 (x + a) = x + a := by
      rintro x ⟨m1, hm1⟩ ⟨m2, hm2⟩
      refine round2_eq_self _ ⟨m1 + m2, ?_⟩
      push_cast
      rw [← hm1, ← hm2]
      ring
    have hAB : (∃ res, (depositToSession env ss sessionId amount).1 = Except.ok res ∧
        res.newBalance = round2 (s.currentBalance + a) ∧
        res.totalDeposited = round2 (s.totalDeposited + a)) ∧
      (∃ s1, (depositToSession env ss sessionId amount).2.1 =
          replaceFirst (sessionPred sessionId) (fun _ => s1) ss ∧
        s1.currentBalance = round2 (s.currentBalance + a) ∧
        s1.totalDeposited = round2 (s.totalDeposited + a)) := by
      unfold depositToSession
      rw [hfind]
      try dsimp only
      rw [hparse]
      try dsimp only
      rw [if_neg (not_le.mpr hpos)]
      try dsimp only
      repeat' split
      all_goals exact ⟨⟨_, rfl, rfl, rfl⟩, ⟨_, rfl, rfl, rfl⟩⟩
    exact ⟨hAB.1, hAB.2, hexact s.currentBalance, hexact s.totalDeposited⟩
  · intro hbad
    rcases hfind : ss.find? (sessionPred sessionId) with _ | s
    · unfold depositToSession
      rw [hfind]
      exact ⟨⟨_, rfl⟩, rfl, rfl⟩
    · rcases hbad with hnone | ⟨a, hsome, hle⟩
      · unfold depositToSession
        rw [hfind]
        dsimp only
        rw [hnone]
        exact ⟨⟨_, rfl⟩, rfl, rfl⟩
      · unfold depositToSession
        rw [hfind]
        dsimp only
        rw [hsome]
        dsimp only
        rw [if_pos hle]
        exact ⟨⟨_, rfl⟩, rfl, rfl⟩

theorem depositToSession_semantics_witness :
    [sessionFix5].find? (sessionPred "S1") = some sessionFix5 ∧
    parseDecimal "2.50" = some (5/2) ∧
    (0 : ℚ) < 5/2 ∧
    envResizeBoom.resizeChannelResult = Except.error "resize timeout" ∧
    sessionFix5.currentBalance = 5 ∧ sessionFix5.totalDeposited = 5 ∧
    round2 ((5 : ℚ) + 5/2) = 15/2 ∧
    ((∃ res, (depositToSession envResizeBoom [sessionFix5] "S1" "2.50").1 =
        Except.ok res ∧
      res.newBalance = round2 (sessionFix5.currentBalance + 5/2) ∧
      res.totalDeposited = round2 (sessionFix5.totalDeposited + 5/2)) ∧
    (∃ s1, (depositToSession envResizeBoom [sessionFix5] "S1" "2.50").2.1 =
        replaceFirst (sessionPred "S1") (fun _ => s1) [sessionFix5] ∧
      s1.currentBalance = round2 (sessionFix5.currentBalance + 5/2) ∧
      s1.totalDeposited = round2 (sessionFix5.totalDeposited + 5/2)) ∧
    ((∃ m : ℤ, sessionFix5.currentBalance * 100 = m) →
      (∃ m : ℤ, (5/2 : ℚ) * 100 = m) →
      round2 (sessionFix5.currentBalance + 5/2) = sessionFix5.currentBalance + 5/2) ∧
    ((∃ m : ℤ, sessionFix5.totalDeposited * 100 = m) →
      (∃ m : ℤ, (5/2 : ℚ) * 100 = m) →
      round2 (sessionFix5.totalDeposited + 5/2) = sessionFix5.totalDeposited + 5/2)) :=
  ⟨rfl, parse_250, by norm_num, rfl, rfl, rfl, by norm_num [round2],
   (depositToSession_semantics envResizeBoom [sessionFix5] "S1" "2.50").1
     sessionFix5 (5/2) rfl parse_250 (by norm_num)⟩
